import Mathlib

/-!
Verification development for the `naparimovie` movie-scripting core
(`naparimovie/scriptcommands.py` and `naparimovie/naparimovie.py`).

Shallow embedding conventions:
* Python floats are modelled as real numbers (`ℝ`); machine rounding is
  idealised away, which is the reading the spec itself takes ("up to
  numerical tolerance", "exactly, no rounding drift").
* The regex-extraction layer of `Script.parse_command` is modelled by the
  structured type `Statement` holding the captured fields (angle, axis,
  factor, vector, layer, last token, shift).  Claims that are genuinely
  about raw line text (frame-number scanning in `read_script`,
  `command.split()[-1]` in the `make` branch) are modelled at the
  character-list level instead.
* `states_dict`, a Python list indexed by frame number, is modelled as a
  total map `ℕ → StateFrame`; the Python write `states_dict[-1] = ...` is
  the write at index `end`.
-/

namespace Naparimovie

/-! ## Quaternions (vispy `Quaternion` / pyquaternion `Quaternion`) -/

/-- Quaternion with real components, in `(w, x, y, z)` order as used by both
vispy's and pyquaternion's `Quaternion`. -/
@[ext]
structure Quat where
  w : ℝ
  x : ℝ
  y : ℝ
  z : ℝ

/-- Hamilton product, the `__mul__` of vispy's `Quaternion` (also
pyquaternion's). -/
def qmul (a b : Quat) : Quat :=
  ⟨a.w * b.w - a.x * b.x - a.y * b.y - a.z * b.z,
   a.w * b.x + a.x * b.w + a.y * b.z - a.z * b.y,
   a.w * b.y + a.y * b.w + a.z * b.x - a.x * b.z,
   a.w * b.z + a.z * b.w + a.x * b.y - a.y * b.x⟩

/-- Componentwise sum of quaternions (numpy `q0.q + q1.q`). -/
def qadd (a b : Quat) : Quat := ⟨a.w + b.w, a.x + b.x, a.y + b.y, a.z + b.z⟩

/-- Componentwise difference of quaternions (numpy `q1.q - q0.q`). -/
def qsub (a b : Quat) : Quat := ⟨a.w - b.w, a.x - b.x, a.y - b.y, a.z - b.z⟩

/-- Scalar multiple of a quaternion (numpy `s * q.q`). -/
def qsmul (s : ℝ) (a : Quat) : Quat := ⟨s * a.w, s * a.x, s * a.y, s * a.z⟩

/-- Componentwise negation (numpy `-q.q`). -/
def qneg (a : Quat) : Quat := ⟨-a.w, -a.x, -a.y, -a.z⟩

/-- Dot product of the component vectors (numpy `np.dot(q0.q, q1.q)`). -/
def qdot (a b : Quat) : ℝ := a.w * b.w + a.x * b.x + a.y * b.y + a.z * b.z

/-- Squared norm of the component vector. -/
def qnormSq (a : Quat) : ℝ := a.w * a.w + a.x * a.x + a.y * a.y + a.z * a.z

/-- A typed operation, the `result` tuples built by `Script.parse_command`. -/
inductive Operation where
  | rotate (q : Quat)
  | translate (v : ℝ × ℝ × ℝ)
  | zoom (f : ℝ)
  | vis (layer : ℕ) (b : Bool)
  | timeShift (t : ℤ)

/-- Which viewer attribute an operation touches. -/
inductive Attrib where
  | rot | tra | zo | vi | ti
deriving DecidableEq

/-- Attribute touched by an operation. -/
def attrOf : Operation → Attrib
  | .rotate _ => .rot
  | .translate _ => .tra
  | .zoom _ => .zo
  | .vis _ _ => .vi
  | .timeShift _ => .ti

/-- One compiled command, the dict `{'start', 'end', 'operation', 'params'}`
of `Script.create_commandlist`. -/
structure CompiledCommand where
  cstart : ℕ
  cend : ℕ
  op : Operation

/-- numpy `np.linspace(a, b, n)` (with `endpoint=True`): `n` evenly spaced
samples from `a` to `b` inclusive.  For `n = 1` numpy returns `[a]`; for
`n ≥ 2` the sample `i` is `a + i*(b-a)/(n-1)` (in exact real arithmetic the
final sample is exactly `b`, as numpy forces). -/
noncomputable def linspace (a b : ℝ) (n : ℕ) : List ℝ :=
  if n = 1 then [a]
  else (List.range n).map (fun i : ℕ => a + (i : ℝ) * ((b - a) / ((n : ℝ) - 1)))

theorem linspace_length (a b : ℝ) (n : ℕ) : (linspace a b n).length = n := by
  unfold linspace
  split
  · simp only [List.length_singleton]; omega
  · rw [List.length_map, List.length_range]

/-- One entry of `states_dict` (src/naparimovie/scriptcommands.py line 189):
per-frame attribute values, where `none` models the "empty" placeholder `[]`
("not authored at this frame").  The Python list indexed by frame is modelled
as a total map `ℕ → StateFrame`. -/
@[ext]
structure StateFrame where
  rotate : Option Quat
  translate : Option (ℝ × ℝ × ℝ)
  zoom : Option ℝ
  vis : Option (List Bool)
  time : Option ℤ

/-- The running `old_state` baseline carried through the compounding loop,
with every attribute populated (as after the frame-0 seeding). -/
@[ext]
structure Baseline where
  rotate : Quat
  translate : ℝ × ℝ × ℝ
  zoom : ℝ
  vis : List Bool
  time : ℤ

/-- Componentwise sum of 3-vectors (`np.array(old) + delta`). -/
def vadd (a b : ℝ × ℝ × ℝ) : ℝ × ℝ × ℝ := (a.1 + b.1, a.2.1 + b.2.1, a.2.2 + b.2.2)

/-- Write the rotation attribute of frame `i` (`states_dict[i]['rotate'] = v`). -/
def writeRot (T : ℕ → StateFrame) (i : ℕ) (v : Quat) : ℕ → StateFrame :=
  fun n => if n = i then { T n with rotate := some v } else T n

/-- Write the translation attribute of frame `i`. -/
def writeTra (T : ℕ → StateFrame) (i : ℕ) (v : ℝ × ℝ × ℝ) : ℕ → StateFrame :=
  fun n => if n = i then { T n with translate := some v } else T n

/-- Write the zoom attribute of frame `i`. -/
def writeZoom (T : ℕ → StateFrame) (i : ℕ) (v : ℝ) : ℕ → StateFrame :=
  fun n => if n = i then { T n with zoom := some v } else T n

/-- Write the visibility attribute of frame `i`. -/
def writeVis (T : ℕ → StateFrame) (i : ℕ) (v : List Bool) : ℕ → StateFrame :=
  fun n => if n = i then { T n with vis := some v } else T n

/-- Write the time attribute of frame `i`. -/
def writeTime (T : ℕ → StateFrame) (i : ℕ) (v : ℤ) : ℕ → StateFrame :=
  fun n => if n = i then { T n with time := some v } else T n

/-- The body of the compounding loop of `Script.create_frame_commandlist`
(src/naparimovie/scriptcommands.py lines 204-230): for the command's
attribute, write the current baseline value at `start`, write the compounded
new value at `end`, and update the baseline to the new value. -/
def applyCommand (st : (ℕ → StateFrame) × Baseline) (c : CompiledCommand) :
    (ℕ → StateFrame) × Baseline :=
  match c.op with
  | .rotate q =>
      let nv := qmul st.2.rotate q
      (writeRot (writeRot st.1 c.cstart st.2.rotate) c.cend nv,
       { st.2 with rotate := nv })
  | .translate v =>
      let nv := vadd st.2.translate v
      (writeTra (writeTra st.1 c.cstart st.2.translate) c.cend nv,
       { st.2 with translate := nv })
  | .zoom f =>
      let nv := st.2.zoom * f
      (writeZoom (writeZoom st.1 c.cstart st.2.zoom) c.cend nv,
       { st.2 with zoom := nv })
  | .vis l b =>
      let nv := st.2.vis.set l b
      (writeVis (writeVis st.1 c.cstart st.2.vis) c.cend nv,
       { st.2 with vis := nv })
  | .timeShift t =>
      let nv := st.2.time + t
      (writeTime (writeTime st.1 c.cstart st.2.time) c.cend nv,
       { st.2 with time := nv })

/-- A `StateFrame` holding the full baseline (the final
`states_dict[-1] = copy.deepcopy(old_state)`). -/
def baselineFrame (b : Baseline) : StateFrame :=
  ⟨some b.rotate, some b.translate, some b.zoom, some b.vis, some b.time⟩

/-- `Script.create_frame_commandlist` after the frame-0 seeding: fold the
sorted command list through `applyCommand`, then force the last frame
(`states_dict[-1]`, i.e. index `endF`) to the full final baseline. -/
def create_frame_commandlist (cmds : List CompiledCommand) (endF : ℕ)
    (init : (ℕ → StateFrame) × Baseline) : (ℕ → StateFrame) × Baseline :=
  let r := cmds.foldl applyCommand init
  (fun n => if n = endF then baselineFrame r.2 else r.1 n, r.2)

/-- Modelled from claim C1's wording: the per-attribute "new value" of the
running baseline — rotation right-composed with the delta quaternion,
translation plus the delta vector, zoom times the delta factor, visibility
with the target layer set, time plus the delta integer. -/
def claimNewBaseline (b : Baseline) : Operation → Baseline
  | .rotate q => { b with rotate := qmul b.rotate q }
  | .translate v => { b with translate := vadd b.translate v }
  | .zoom f => { b with zoom := b.zoom * f }
  | .vis l bo => { b with vis := b.vis.set l bo }
  | .timeShift t => { b with time := b.time + t }

/-- Modelled from claim C1's wording: write the old baseline value of the
command's attribute at its start frame, the new value at its end frame, and
carry the new baseline forward. -/
def claimStep (st : (ℕ → StateFrame) × Baseline) (c : CompiledCommand) :
    (ℕ → StateFrame) × Baseline :=
  let nb := claimNewBaseline st.2 c.op
  match c.op with
  | .rotate _ => (writeRot (writeRot st.1 c.cstart st.2.rotate) c.cend nb.rotate, nb)
  | .translate _ =>
      (writeTra (writeTra st.1 c.cstart st.2.translate) c.cend nb.translate, nb)
  | .zoom _ => (writeZoom (writeZoom st.1 c.cstart st.2.zoom) c.cend nb.zoom, nb)
  | .vis _ _ => (writeVis (writeVis st.1 c.cstart st.2.vis) c.cend nb.vis, nb)
  | .timeShift _ => (writeTime (writeTime st.1 c.cstart st.2.time) c.cend nb.time, nb)

theorem applyCommand_eq_claimStep (st : (ℕ → StateFrame) × Baseline)
    (c : CompiledCommand) : applyCommand st c = claimStep st c := by
  rcases c with ⟨s, e, op⟩
  cases op <;> rfl

theorem foldl_applyCommand_eq_claimStep (cmds : List CompiledCommand) :
    ∀ st : (ℕ → StateFrame) × Baseline,
      cmds.foldl applyCommand st = cmds.foldl claimStep st := by
  induction cmds with
  | nil => intro st; rfl
  | cons c cs ih =>
      intro st
      simp only [List.foldl_cons, applyCommand_eq_claimStep, ih]

/-- C1: on every sorted command list the State Compounder behaves, command by
command, exactly as the claim describes: the old baseline value is written at
the command's start frame, the per-attribute compounded new value (rotation
right-composed, translation added, zoom multiplied, visibility layer set,
time added) is written at its end frame, and the baseline is carried
forward. -/
theorem claim_C1_compounder_updates (cmds : List CompiledCommand)
    (_hsorted : cmds.Pairwise (fun a b => a.cstart ≤ b.cstart))
    (T : ℕ → StateFrame) (b : Baseline) :
    cmds.foldl applyCommand (T, b) = cmds.foldl claimStep (T, b) :=
  foldl_applyCommand_eq_claimStep cmds (T, b)

/-- Witness for C1 on a concrete sorted two-command list. -/
theorem claim_C1_witness :
    List.Pairwise (fun a b => a.cstart ≤ b.cstart)
      [CompiledCommand.mk 0 5 (.zoom 2), CompiledCommand.mk 5 8 (.timeShift 3)] ∧
    [CompiledCommand.mk 0 5 (.zoom 2), CompiledCommand.mk 5 8 (.timeShift 3)].foldl
        applyCommand
        (fun _ => StateFrame.mk none none none none none,
         Baseline.mk ⟨1, 0, 0, 0⟩ (0, 0, 0) 1 [true] 0)
      = [CompiledCommand.mk 0 5 (.zoom 2), CompiledCommand.mk 5 8 (.timeShift 3)].foldl
        claimStep
        (fun _ => StateFrame.mk none none none none none,
         Baseline.mk ⟨1, 0, 0, 0⟩ (0, 0, 0) 1 [true] 0) :=
  ⟨by simp [List.pairwise_cons], by
    exact claim_C1_compounder_updates _ (by simp [List.pairwise_cons]) _ _⟩

/-! ## Order-independence of commands on different attributes (C9) -/

theorem writeTra_writeRot (T : ℕ → StateFrame) (i j : ℕ) (q : Quat) (v : ℝ × ℝ × ℝ) :
    writeTra (writeRot T i q) j v = writeRot (writeTra T j v) i q := by
  funext n
  unfold writeTra writeRot
  rcases eq_or_ne n i with rfl | hi <;> rcases eq_or_ne n j with rfl | hj <;> simp [*]

theorem writeZoom_writeRot (T : ℕ → StateFrame) (i j : ℕ) (q : Quat) (z : ℝ) :
    writeZoom (writeRot T i q) j z = writeRot (writeZoom T j z) i q := by
  funext n
  unfold writeZoom writeRot
  rcases eq_or_ne n i with rfl | hi <;> rcases eq_or_ne n j with rfl | hj <;> simp [*]

theorem writeVis_writeRot (T : ℕ → StateFrame) (i j : ℕ) (q : Quat) (v : List Bool) :
    writeVis (writeRot T i q) j v = writeRot (writeVis T j v) i q := by
  funext n
  unfold writeVis writeRot
  rcases eq_or_ne n i with rfl | hi <;> rcases eq_or_ne n j with rfl | hj <;> simp [*]

theorem writeTime_writeRot (T : ℕ → StateFrame) (i j : ℕ) (q : Quat) (t : ℤ) :
    writeTime (writeRot T i q) j t = writeRot (writeTime T j t) i q := by
  funext n
  unfold writeTime writeRot
  rcases eq_or_ne n i with rfl | hi <;> rcases eq_or_ne n j with rfl | hj <;> simp [*]

theorem writeZoom_writeTra (T : ℕ → StateFrame) (i j : ℕ) (v : ℝ × ℝ × ℝ) (z : ℝ) :
    writeZoom (writeTra T i v) j z = writeTra (writeZoom T j z) i v := by
  funext n
  unfold writeZoom writeTra
  rcases eq_or_ne n i with rfl | hi <;> rcases eq_or_ne n j with rfl | hj <;> simp [*]

theorem writeVis_writeTra (T : ℕ → StateFrame) (i j : ℕ) (v : ℝ × ℝ × ℝ) (w : List Bool) :
    writeVis (writeTra T i v) j w = writeTra (writeVis T j w) i v := by
  funext n
  unfold writeVis writeTra
  rcases eq_or_ne n i with rfl | hi <;> rcases eq_or_ne n j with rfl | hj <;> simp [*]

theorem writeTime_writeTra (T : ℕ → StateFrame) (i j : ℕ) (v : ℝ × ℝ × ℝ) (t : ℤ) :
    writeTime (writeTra T i v) j t = writeTra (writeTime T j t) i v := by
  funext n
  unfold writeTime writeTra
  rcases eq_or_ne n i with rfl | hi <;> rcases eq_or_ne n j with rfl | hj <;> simp [*]

theorem writeVis_writeZoom (T : ℕ → StateFrame) (i j : ℕ) (z : ℝ) (w : List Bool) :
    writeVis (writeZoom T i z) j w = writeZoom (writeVis T j w) i z := by
  funext n
  unfold writeVis writeZoom
  rcases eq_or_ne n i with rfl | hi <;> rcases eq_or_ne n j with rfl | hj <;> simp [*]

theorem writeTime_writeZoom (T : ℕ → StateFrame) (i j : ℕ) (z : ℝ) (t : ℤ) :
    writeTime (writeZoom T i z) j t = writeZoom (writeTime T j t) i z := by
  funext n
  unfold writeTime writeZoom
  rcases eq_or_ne n i with rfl | hi <;> rcases eq_or_ne n j with rfl | hj <;> simp [*]

theorem writeTime_writeVis (T : ℕ → StateFrame) (i j : ℕ) (w : List Bool) (t : ℤ) :
    writeTime (writeVis T i w) j t = writeVis (writeTime T j t) i w := by
  funext n
  unfold writeTime writeVis
  rcases eq_or_ne n i with rfl | hi <;> rcases eq_or_ne n j with rfl | hj <;> simp [*]

/-- Two adjacent commands on different attributes can be applied in either
order without changing the table or the baseline. -/
theorem applyCommand_comm (st : (ℕ → StateFrame) × Baseline)
    (a b : CompiledCommand) (hab : attrOf a.op ≠ attrOf b.op) :
    applyCommand (applyCommand st a) b = applyCommand (applyCommand st b) a := by
  rcases a with ⟨sa, ea, opa⟩
  rcases b with ⟨sb, eb, opb⟩
  cases opa <;> cases opb <;>
    simp_all [applyCommand, attrOf, Prod.mk.injEq,
      writeTra_writeRot, writeZoom_writeRot, writeVis_writeRot, writeTime_writeRot,
      writeZoom_writeTra, writeVis_writeTra, writeTime_writeTra,
      writeVis_writeZoom, writeTime_writeZoom, writeTime_writeVis]

/-- C9: swapping two adjacent commands that affect different attributes
anywhere in the command list leaves the final StateFrame table (and the
final baseline) of the State Compounder unchanged. -/
theorem claim_C9_cross_attribute_commute (pre post : List CompiledCommand)
    (a b : CompiledCommand) (hab : attrOf a.op ≠ attrOf b.op) (endF : ℕ)
    (T : ℕ → StateFrame) (bl : Baseline) :
    create_frame_commandlist (pre ++ a :: b :: post) endF (T, bl)
      = create_frame_commandlist (pre ++ b :: a :: post) endF (T, bl) := by
  unfold create_frame_commandlist
  rw [List.foldl_append, List.foldl_append]
  simp only [List.foldl_cons]
  rw [applyCommand_comm _ a b hab]

/-- Witness for C9: a zoom command and a time command over the same frame
range commute. -/
theorem claim_C9_witness :
    attrOf (CompiledCommand.mk 0 5 (.zoom 2)).op
        ≠ attrOf (CompiledCommand.mk 0 5 (.timeShift 3)).op ∧
    create_frame_commandlist
        ([] ++ CompiledCommand.mk 0 5 (.zoom 2) :: CompiledCommand.mk 0 5 (.timeShift 3) :: [])
        5
        (fun _ => StateFrame.mk none none none none none,
         Baseline.mk ⟨1, 0, 0, 0⟩ (0, 0, 0) 1 [true] 0)
      = create_frame_commandlist
        ([] ++ CompiledCommand.mk 0 5 (.timeShift 3) :: CompiledCommand.mk 0 5 (.zoom 2) :: [])
        5
        (fun _ => StateFrame.mk none none none none none,
         Baseline.mk ⟨1, 0, 0, 0⟩ (0, 0, 0) 1 [true] 0) :=
  ⟨by decide, claim_C9_cross_attribute_commute [] []
    (CompiledCommand.mk 0 5 (.zoom 2)) (CompiledCommand.mk 0 5 (.timeShift 3))
    (by decide) 5 _ _⟩

/-! ## Raw-line scanning (`Script.read_script` end-frame computation, C7) -/

/-- Numeric value of a digit run (the `int(...)` applied to a `(\d+)`
capture). -/
def digitsVal (ds : List Char) : ℕ :=
  ds.foldl (fun acc c => 10 * acc + (c.toNat - 48)) 0

/-- Value of the maximal leading digit run, or `none` when the text does not
start with a digit (the regex `(\d+)` needs at least one digit and is
greedy). -/
def leadingNumber (cs : List Char) : Option ℕ :=
  match cs.takeWhile Char.isDigit with
  | [] => none
  | ds => some (digitsVal ds)

/-- Whether the regex alternative `(At frame |to frame )(\d+)` matches at
this position, and the captured number if so.  Both markers are 9 characters
long. -/
def frameRefAt (cs : List Char) : Option ℕ :=
  if ("At frame ".toList).isPrefixOf cs then leadingNumber (cs.drop 9)
  else if ("to frame ".toList).isPrefixOf cs then leadingNumber (cs.drop 9)
  else none

/-- All positions of a line where `(At frame |to frame )(\d+)` matches, with
their captured numbers in order.  This is the claim-side notion "every frame
number mentioned by any clause of the line". -/
def allFrameRefs : List Char → List ℕ
  | [] => []
  | c :: rest =>
      match frameRefAt (c :: rest) with
      | some n => n :: allFrameRefs rest
      | none => allFrameRefs rest

/-- `re.findall('(At frame |to frame )(\d+).*', x)` on one line: the scan
stops after the first match because the trailing greedy `.*` consumes the
rest of the line (up to the final newline, where no further match can
start), so `findall` returns at most the first clause of the line. -/
def pyFindallRefs : List Char → List ℕ
  | [] => []
  | c :: rest =>
      match frameRefAt (c :: rest) with
      | some n => [n]
      | none => pyFindallRefs rest

/-- `np.max` over a Python list of ints: `none` models the `ValueError`
numpy raises on an empty sequence. -/
def npMaxNat : List ℕ → Option ℕ
  | [] => none
  | x :: xs => some (xs.foldl max x)

/-- The end-frame computation of `Script.read_script`
(src/naparimovie/scriptcommands.py lines 94-95):
`end = [re.findall(...) for x in commands]` followed by
`np.max([int(x[0][1]) for x in end if x])` — the first captured clause of
each line that has one, maximised; failure (`none`) when no line has any. -/
def read_script_end (lines : List (List Char)) : Option ℕ :=
  npMaxNat ((lines.map pyFindallRefs).filterMap List.head?)

/-- Modelled from claim C7's words: the maximum frame number mentioned by
ANY `At frame N` / `to frame N` clause across all lines (not just each
line's first clause). -/
def spec_end_all_clauses (lines : List (List Char)) : Option ℕ :=
  npMaxNat ((lines.map allFrameRefs).flatten)

theorem pyFindallRefs_eq_head (cs : List Char) :
    pyFindallRefs cs = (allFrameRefs cs).head?.toList := by
  induction cs with
  | nil => rfl
  | cons c rest ih =>
      unfold pyFindallRefs allFrameRefs
      cases frameRefAt (c :: rest) <;> simp [ih]

theorem npMaxNat_eq_none_iff (l : List ℕ) : npMaxNat l = none ↔ l = [] := by
  cases l <;> simp [npMaxNat]

/-- C7 (amended): the parser's `end_frame` is the maximum over the FIRST
`At frame N` / `to frame N` clause of each line (the regex's trailing `.*`
consumes the rest of the line, so later clauses on the same line are
ignored), and it fails exactly when no line contains any such clause. -/
theorem claim_C7_end_frame_first_clause (lines : List (List Char)) :
    read_script_end lines
      = npMaxNat (lines.filterMap (fun l => (allFrameRefs l).head?)) ∧
    (read_script_end lines = none ↔ ∀ l ∈ lines, allFrameRefs l = []) := by
  have h1 : read_script_end lines
      = npMaxNat (lines.filterMap (fun l => (allFrameRefs l).head?)) := by
    unfold read_script_end
    congr 1
    rw [List.filterMap_map]
    refine List.filterMap_congr ?_
    intro l _
    rw [Function.comp_apply, pyFindallRefs_eq_head]
    cases (allFrameRefs l).head? <;> rfl
  refine ⟨h1, ?_⟩
  rw [h1, npMaxNat_eq_none_iff, List.filterMap_eq_nil_iff]
  constructor
  · intro h l hl
    have := h l hl
    simpa using this
  · intro h l hl
    simp [h l hl]

/-- Counterexample to C7 as stated: on a line holding two `to frame` clauses
the code takes the first one (frame 5), not the maximum over all clauses
(frame 9). -/
theorem claim_C7_counterexample :
    read_script_end ["From frame 0 to frame 5 to frame 9\n".toList] = some 5 ∧
    spec_end_all_clauses ["From frame 0 to frame 5 to frame 9\n".toList] = some 9 ∧
    read_script_end ["From frame 0 to frame 5 to frame 9\n".toList]
      ≠ spec_end_all_clauses ["From frame 0 to frame 5 to frame 9\n".toList] := by
  decide

/-! ## Visibility statement parsing at the text level (C10) -/

/-- The five operation keywords of
`re.findall('.*(rotate|translate|zoom|make|time).*', command)`. -/
inductive OpKind where
  | rotate | translate | zoom | make | time
deriving DecidableEq

/-- Which keyword alternative matches at this position (alternation order as
in the regex; the alternatives are prefix-disjoint except via their first
letters, so at most one can match at a position). -/
def kindAt (cs : List Char) : Option OpKind :=
  if ("rotate".toList).isPrefixOf cs then some .rotate
  else if ("translate".toList).isPrefixOf cs then some .translate
  else if ("zoom".toList).isPrefixOf cs then some .zoom
  else if ("make".toList).isPrefixOf cs then some .make
  else if ("time".toList).isPrefixOf cs then some .time
  else none

/-- `re.findall('.*(rotate|translate|zoom|make|time).*', command)[0]`: the
leading greedy `.*` makes the group match at the rightmost position where
any keyword occurs; `none` models the `IndexError` on `[0]` when no keyword
occurs at all. -/
def findKind : List Char → Option OpKind
  | [] => none
  | c :: rest =>
      match findKind rest with
      | some k => some k
      | none => kindAt (c :: rest)

/-- Python `str.split()` (no separator): split on whitespace runs, dropping
empty fields. -/
def pySplitChars (cs : List Char) : List (List Char) :=
  (cs.splitOnP Char.isWhitespace).filter (fun t => t ≠ [])

/-- The `make` branch of `Script.parse_command`
(src/naparimovie/scriptcommands.py lines 171-177): the compiled visibility
boolean is `False` when `command.split()[-1] == 'invisible'` and `True` for
any other last token; `none` models the `IndexError` of `[-1]` on an empty
split. -/
def makeVisStatus (line : List Char) : Option Bool :=
  (pySplitChars line).getLast?.map
    (fun tok => if tok = "invisible".toList then false else true)

/-- C10: for a line classified as a `make` (visibility) command, the
compiled boolean is `False` iff the line's last whitespace-separated token
is exactly `invisible`, and any other last token compiles to `True` rather
than failing. -/
theorem claim_C10_invisible_last_token (line : List Char)
    (_hmake : findKind line = some OpKind.make) :
    (makeVisStatus line = some false
        ↔ (pySplitChars line).getLast? = some ("invisible".toList)) ∧
    ∀ t, (pySplitChars line).getLast? = some t → t ≠ "invisible".toList →
      makeVisStatus line = some true := by
  unfold makeVisStatus
  cases h : (pySplitChars line).getLast? with
  | none => simp
  | some t =>
      by_cases ht : t = "invisible".toList <;> simp [ht]

/-- Witness for C10 on a concrete `make ... invisible` line. -/
theorem claim_C10_witness :
    findKind ("At frame 12 make layer 1 invisible\n".toList) = some OpKind.make ∧
    (makeVisStatus ("At frame 12 make layer 1 invisible\n".toList) = some false
      ↔ (pySplitChars ("At frame 12 make layer 1 invisible\n".toList)).getLast?
          = some ("invisible".toList)) :=
  ⟨by decide,
   (claim_C10_invisible_last_token ("At frame 12 make layer 1 invisible\n".toList)
     (by decide)).1⟩

/-! ## Interpolation engine (`Movie.create_steps`,
src/naparimovie/naparimovie.py lines 188-244) -/

/-- The divisor used by pyquaternion `Quaternion._fast_normalise`: the Padé
approximation `(1 + |q|²)/2` when `|q|²` is within `2.107342e-08` of 1, and
`sqrt(|q|²)` otherwise. -/
noncomputable def fastMag (q : Quat) : ℝ :=
  if |1 - qdot q q| < 2.107342e-8 then (1 + qdot q q) / 2
  else Real.sqrt (qdot q q)

/-- pyquaternion `Quaternion._fast_normalise()`: divide all components by
`fastMag`. -/
noncomputable def fastNormalise (q : Quat) : Quat :=
  ⟨q.w / fastMag q, q.x / fastMag q, q.y / fastMag q, q.z / fastMag q⟩

/-- The sign fix of pyquaternion `Quaternion.slerp`: when the dot product of
the (normalised) endpoints is negative, `q0` is negated and the dot product
flipped so slerp takes the shorter path.  Returns the `q0` actually used and
the resulting dot product. -/
noncomputable def slerpFlip (q0 q1 : Quat) : Quat × ℝ :=
  if qdot q0 q1 < 0 then (qneg q0, -qdot q0 q1) else (q0, qdot q0 q1)

/-- The branch body of pyquaternion `Quaternion.slerp` after normalisation,
clipping and the sign fix: linear interpolation + renormalisation when
`dot > 0.9995`, otherwise the spherical formula with
`theta_0 = arccos(dot)`, `theta = theta_0 * t`,
`s0 = cos(theta) - dot*sin(theta)/sin(theta_0)`,
`s1 = sin(theta)/sin(theta_0)`, result `normalise(s0*q0 + s1*q1)`. -/
noncomputable def slerpCore (q0 q1 : Quat) (d t : ℝ) : Quat :=
  if 0.9995 < d then fastNormalise (qadd q0 (qsmul t (qsub q1 q0)))
  else
    fastNormalise (qadd
      (qsmul (Real.cos (Real.arccos d * t)
        - d * Real.sin (Real.arccos d * t) / Real.sin (Real.arccos d)) q0)
      (qsmul (Real.sin (Real.arccos d * t) / Real.sin (Real.arccos d)) q1))

/-- pyquaternion `Quaternion.slerp(q0, q1, amount)`: fast-normalise both
inputs, clip `amount` into `[0,1]` (`np.clip`), apply the sign fix, then the
branch body.  Note the spherical branch mixes in the (un-negated) `q1`. -/
noncomputable def slerp (q0i q1i : Quat) (amount : ℝ) : Quat :=
  slerpCore (slerpFlip (fastNormalise q0i) (fastNormalise q1i)).1
    (fastNormalise q1i)
    (slerpFlip (fastNormalise q0i) (fastNormalise q1i)).2
    (max 0 (min 1 amount))

/-- pyquaternion `Quaternion.intermediates(q0, q1, num, include_endpoints=True)`:
`num + 2` slerp samples at `amount = i * (1/(num+1))` for `i = 0 .. num+1`. -/
noncomputable def intermediates (q0 q1 : Quat) (num : ℕ) : List Quat :=
  (List.range (num + 2)).map
    (fun i : ℕ => slerp q0 q1 ((i : ℝ) * (1 / ((num : ℝ) + 1))))

/-- The rotation loop of `Movie.create_steps` (lines 192-201): per
consecutive pair of key-frame rotations, append the `inter_steps + 2`
intermediate quaternions (endpoints included) of that segment. -/
noncomputable def allStatesList (qs : List Quat) (interSteps : ℕ) : List Quat :=
  ((qs.zip qs.tail).map (fun p => intermediates p.1 p.2 interSteps)).flatten

/-- `np.interp(x, xp, fp)` on an increasing nonempty `xp` given as
`(xp, fp)` pairs: clamp to `fp[0]` left of `xp[0]` and to the last `fp`
right of the last `xp`, linear in between.  (numpy raises on empty `xp`;
that case is checked by the caller, see `create_steps`.) -/
noncomputable def npInterpVal (x : ℝ) : List (ℝ × ℝ) → ℝ
  | [] => 0
  | [(_, y0)] => y0
  | (x0, y0) :: (x1, y1) :: rest =>
      if x ≤ x0 then y0
      else if x ≤ x1 then y0 + (y1 - y0) * (x - x0) / (x1 - x0)
      else npInterpVal x ((x1, y1) :: rest)

/-- One captured camera state: the fields of
`myviewer.window.qt_viewer.view.camera.get_state()` that `create_steps`
reads (`_quaternion`, `scale_factor`, `fov`, `center`). -/
structure CamState where
  quat : Quat
  scale_factor : ℝ
  fov : ℝ
  center : ℝ × ℝ × ℝ

/-- The `Movie` fields feeding `create_steps`: the key-frame camera states,
the per-key-frame layer-visibility lists, `inter_steps`, whether the viewer
exposes a time axis (`len(self.myviewer.dims.point) == 4`), and the
per-key-frame time points `self.state_time` captured when it does. -/
structure MovieInput where
  states : List CamState
  state_visible : List (List Bool)
  inter_steps : ℕ
  has_time : Bool
  state_time : List ℤ

/-- The dense track produced by `Movie.create_steps`: `all_states`
(rotations), `all_scales`, `all_fov`, `all_center`, `all_vis`, and — only
when the viewer has a time axis — `all_time`. -/
structure DenseTrack where
  all_states : List Quat
  all_scales : List ℝ
  all_fov : List ℝ
  all_center : List (ℝ × ℝ × ℝ)
  all_vis : List (List Bool)
  all_time : Option (List ℤ)

/-- numpy `.astype(int)` on a float: truncation toward zero. -/
noncomputable def pyTruncInt (x : ℝ) : ℤ := if 0 ≤ x then ⌊x⌋ else ⌈x⌉

/-- The time branch of `Movie.create_steps` (lines 230-236) after the
emptiness check: per consecutive pair of captured time points, the
`inter_steps + 2` samples `t0 + (t1-t0)/(inter_steps+2) * k` for
`k = 0 .. inter_steps+1`, concatenated and truncated to int. -/
noncomputable def npTimeTrack (ts : List ℤ) (s : ℕ) : List ℤ :=
  ((ts.zip ts.tail).map (fun p =>
    (List.range (s + 2)).map (fun k : ℕ =>
      pyTruncInt ((p.1 : ℝ) + ((p.2 : ℝ) - (p.1 : ℝ)) / ((s : ℝ) + 2) * (k : ℝ))))).flatten

/-- `Movie.create_steps` (lines 188-244): slerp the rotation segments, then
resample scale, fov, the three center coordinates and each layer's 0/1
visibility with `np.interp` over `x = np.arange(len(all_states))` and
`xp = np.linspace(0, len(all_states)-1, <number of key-frames>)`
(`len(all_scales)`, `len(all_fov)` and `len(all_center)` all equal the
number of key-frames), thresholding visibility with `> 0`; when the viewer
has a time axis, also build the quantized time track.  `none` models the two
`ValueError`s numpy can raise: at the first `np.interp` call when `xp` is
empty (no key-frames), and at `np.concatenate(all_time)` when the viewer is
4D and fewer than 2 time points were captured (empty segment list). -/
noncomputable def create_steps (m : MovieInput) : Option DenseTrack :=
  let allq := allStatesList (m.states.map CamState.quat) m.inter_steps
  let L := allq.length
  let xs : List ℝ := (List.range L).map (fun i : ℕ => (i : ℝ))
  let xp := linspace 0 ((L : ℝ) - 1) m.states.length
  if xp.isEmpty then none
  else if m.has_time = true ∧ m.state_time.length < 2 then none
  else
    some
      { all_states := allq
        all_scales := xs.map
          (fun x => npInterpVal x (xp.zip (m.states.map CamState.scale_factor)))
        all_fov := xs.map
          (fun x => npInterpVal x (xp.zip (m.states.map CamState.fov)))
        all_center := xs.map (fun x =>
          (npInterpVal x (xp.zip (m.states.map (fun s => s.center.1))),
           npInterpVal x (xp.zip (m.states.map (fun s => s.center.2.1))),
           npInterpVal x (xp.zip (m.states.map (fun s => s.center.2.2)))))
        all_vis := (List.range (m.state_visible.headD []).length).map (fun j =>
          xs.map (fun x =>
            if 0 < npInterpVal x
                (xp.zip (m.state_visible.map
                  (fun row => if row.getD j false then (1 : ℝ) else 0)))
            then true else false))
        all_time := if m.has_time then some (npTimeTrack m.state_time m.inter_steps)
          else none }

theorem fastMag_unit (q : Quat) (h : qdot q q = 1) : fastMag q = 1 := by
  unfold fastMag
  rw [h, if_pos (by norm_num : |1 - (1 : ℝ)| < 2.107342e-8)]
  norm_num

theorem fastNormalise_unit (q : Quat) (h : qdot q q = 1) : fastNormalise q = q := by
  unfold fastNormalise
  rw [fastMag_unit q h]
  refine Quat.ext ?_ ?_ ?_ ?_ <;> simp

theorem slerpCore_zero (q0 q1 : Quat) (d : ℝ) (h0 : qdot q0 q0 = 1) :
    slerpCore q0 q1 d 0 = q0 := by
  unfold slerpCore
  split
  · have h : qadd q0 (qsmul 0 (qsub q1 q0)) = q0 := by
      refine Quat.ext ?_ ?_ ?_ ?_ <;> simp [qadd, qsmul, qsub]
    rw [h, fastNormalise_unit q0 h0]
  · have h : qadd
        (qsmul (Real.cos (Real.arccos d * 0)
          - d * Real.sin (Real.arccos d * 0) / Real.sin (Real.arccos d)) q0)
        (qsmul (Real.sin (Real.arccos d * 0) / Real.sin (Real.arccos d)) q1) = q0 := by
      refine Quat.ext ?_ ?_ ?_ ?_ <;>
        simp [qadd, qsmul, mul_zero, Real.sin_zero, Real.cos_zero]
    rw [h, fastNormalise_unit q0 h0]

theorem slerpCore_one (q0 q1 : Quat) (d : ℝ) (h1 : qdot q1 q1 = 1) (hd : 0 ≤ d) :
    slerpCore q0 q1 d 1 = q1 := by
  unfold slerpCore
  split
  · have h : qadd q0 (qsmul 1 (qsub q1 q0)) = q1 := by
      refine Quat.ext ?_ ?_ ?_ ?_ <;> simp [qadd, qsmul, qsub]
    rw [h, fastNormalise_unit q1 h1]
  · rename_i hbig
    have hle : d ≤ 0.9995 := not_lt.mp hbig
    have hd1 : d < 1 := lt_of_le_of_lt hle (by norm_num)
    have hpos : 0 < Real.sin (Real.arccos d) := by
      rw [Real.sin_arccos]
      apply Real.sqrt_pos.mpr
      nlinarith
    have hcos : Real.cos (Real.arccos d) = d :=
      Real.cos_arccos (by linarith) (le_of_lt hd1)
    have hs0 : Real.cos (Real.arccos d * 1)
        - d * Real.sin (Real.arccos d * 1) / Real.sin (Real.arccos d) = 0 := by
      rw [mul_one, hcos, mul_div_assoc, div_self (ne_of_gt hpos), mul_one, sub_self]
    have hs1 : Real.sin (Real.arccos d * 1) / Real.sin (Real.arccos d) = 1 := by
      rw [mul_one, div_self (ne_of_gt hpos)]
    rw [hs0, hs1]
    have h : qadd (qsmul 0 q0) (qsmul 1 q1) = q1 := by
      refine Quat.ext ?_ ?_ ?_ ?_ <;> simp [qadd, qsmul]
    rw [h, fastNormalise_unit q1 h1]

theorem slerp_zero (q0 q1 : Quat) (h0 : qdot q0 q0 = 1) (h1 : qdot q1 q1 = 1)
    (hd : 0 ≤ qdot q0 q1) : slerp q0 q1 0 = q0 := by
  unfold slerp
  rw [fastNormalise_unit q0 h0, fastNormalise_unit q1 h1]
  have hflip : slerpFlip q0 q1 = (q0, qdot q0 q1) := by
    unfold slerpFlip
    rw [if_neg (not_lt.mpr hd)]
  rw [hflip, show max 0 (min 1 (0 : ℝ)) = 0 by norm_num]
  exact slerpCore_zero q0 q1 _ h0

theorem slerp_one (q0 q1 : Quat) (h0 : qdot q0 q0 = 1) (h1 : qdot q1 q1 = 1) :
    slerp q0 q1 1 = q1 := by
  unfold slerp
  rw [fastNormalise_unit q0 h0, fastNormalise_unit q1 h1,
    show max 0 (min 1 (1 : ℝ)) = 1 by norm_num]
  have hd2 : 0 ≤ (slerpFlip q0 q1).2 := by
    unfold slerpFlip
    split
    · rename_i hlt
      simp only
      linarith
    · rename_i hge
      simp only
      linarith [not_lt.mp hge]
  exact slerpCore_one _ q1 _ h1 hd2

theorem intermediates_length (q0 q1 : Quat) (n : ℕ) :
    (intermediates q0 q1 n).length = n + 2 := by
  unfold intermediates
  rw [List.length_map, List.length_range]

theorem intermediates_head (q0 q1 : Quat) (n : ℕ) :
    (intermediates q0 q1 n).head? = some (slerp q0 q1 0) := by
  unfold intermediates
  rw [show n + 2 = (n + 1) + 1 from rfl, List.range_succ_eq_map, List.map_cons]
  simp

theorem intermediates_getLast (q0 q1 : Quat) (n : ℕ) :
    (intermediates q0 q1 n).getLast? = some (slerp q0 q1 1) := by
  unfold intermediates
  rw [show n + 2 = (n + 1) + 1 from rfl, List.range_succ, List.map_append,
    List.map_cons, List.map_nil, List.getLast?_concat]
  have hne : ((n : ℝ) + 1) ≠ 0 := by positivity
  have harg : ((n + 1 : ℕ) : ℝ) * (1 / ((n : ℝ) + 1)) = 1 := by
    push_cast
    field_simp
  rw [harg]

theorem npInterpVal_two_left (x0 y0 x1 y1 : ℝ) :
    npInterpVal x0 [(x0, y0), (x1, y1)] = y0 := by
  simp only [npInterpVal]
  rw [if_pos le_rfl]

theorem npInterpVal_two_right (x0 y0 x1 y1 : ℝ) (h : x0 < x1) :
    npInterpVal x1 [(x0, y0), (x1, y1)] = y1 := by
  simp only [npInterpVal]
  rw [if_neg (not_le.mpr h), if_pos le_rfl, mul_div_assoc,
    div_self (sub_ne_zero.mpr (ne_of_gt h)), mul_one]
  ring

theorem npInterpVal_two_mid (L x y0 y1 : ℝ) (hx0 : ¬ x ≤ 0) (hxL : x ≤ L) :
    npInterpVal x [(0, y0), (L, y1)] = y0 + (y1 - y0) * x / L := by
  simp only [npInterpVal]
  rw [if_neg hx0, if_pos hxL]
  ring

theorem linspace_two (a b : ℝ) : linspace a b 2 = [a, b] := by
  unfold linspace
  rw [if_neg (by norm_num), show List.range 2 = [0, 1] from rfl]
  norm_num

theorem allStatesList_pair (q0 q1 : Quat) (s : ℕ) :
    allStatesList [q0, q1] s = intermediates q0 q1 s := by
  unfold allStatesList
  simp

/-- Full evaluation of `create_steps` on exactly two key-frames: one slerp
segment of `inter_steps + 2` entries, and every scalar channel resampled
over `xp = [0, inter_steps + 1]`. -/
theorem create_steps_two (c0 c1 : CamState) (v0 v1 : List Bool) (s : ℕ) :
    create_steps (MovieInput.mk [c0, c1] [v0, v1] s false []) = some
      { all_states := intermediates c0.quat c1.quat s
        all_scales := (List.range (s + 2)).map (fun i : ℕ =>
          npInterpVal (i : ℝ)
            [((0 : ℝ), c0.scale_factor), ((s : ℝ) + 1, c1.scale_factor)])
        all_fov := (List.range (s + 2)).map (fun i : ℕ =>
          npInterpVal (i : ℝ) [((0 : ℝ), c0.fov), ((s : ℝ) + 1, c1.fov)])
        all_center := (List.range (s + 2)).map (fun i : ℕ =>
          (npInterpVal (i : ℝ) [((0 : ℝ), c0.center.1), ((s : ℝ) + 1, c1.center.1)],
           npInterpVal (i : ℝ) [((0 : ℝ), c0.center.2.1), ((s : ℝ) + 1, c1.center.2.1)],
           npInterpVal (i : ℝ) [((0 : ℝ), c0.center.2.2), ((s : ℝ) + 1, c1.center.2.2)]))
        all_vis := (List.range v0.length).map (fun j =>
          (List.range (s + 2)).map (fun i : ℕ =>
            if 0 < npInterpVal (i : ℝ)
                [((0 : ℝ), if v0.getD j false then (1 : ℝ) else 0),
                 ((s : ℝ) + 1, if v1.getD j false then (1 : ℝ) else 0)]
            then true else false))
        all_time := none } := by
  unfold create_steps
  simp only [List.map_cons, List.map_nil, allStatesList_pair, intermediates_length,
    List.length_cons, List.length_nil, List.headD_cons]
  rw [show ((s + 2 : ℕ) : ℝ) - 1 = (s : ℝ) + 1 by push_cast; ring]
  rw [show (0 + 1 + 1 : ℕ) = 2 from rfl]
  rw [linspace_two]
  rw [if_neg (by simp)]
  rw [if_neg (by simp)]
  simp only [List.zip_cons_cons, List.zip_nil_right, List.map_map]
  rfl

theorem range_map_head {α : Type} (f : ℕ → α) (n : ℕ) :
    ((List.range (n + 1)).map f).head? = some (f 0) := by
  rw [List.range_succ_eq_map, List.map_cons]
  rfl

theorem range_map_getLast {α : Type} (f : ℕ → α) (n : ℕ) :
    ((List.range (n + 1)).map f).getLast? = some (f n) := by
  rw [List.range_succ, List.map_append, List.map_cons, List.map_nil,
    List.getLast?_concat]

theorem threshold_bool (b : Bool) :
    (if 0 < (if b then (1 : ℝ) else 0) then true else false) = b := by
  cases b <;> norm_num

theorem create_steps_eq_none_iff (m : MovieInput) :
    create_steps m = none
      ↔ (m.states = [] ∨ (m.has_time = true ∧ m.state_time.length < 2)) := by
  unfold create_steps
  by_cases h : m.states = []
  · simp [h, linspace]
  · have hlen : m.states.length ≠ 0 := fun hc => h (List.length_eq_zero.mp hc)
    have hnil : linspace 0
        (((allStatesList (m.states.map CamState.quat) m.inter_steps).length : ℝ) - 1)
        m.states.length ≠ [] := by
      intro hc
      apply hlen
      have hl := linspace_length 0
        (((allStatesList (m.states.map CamState.quat) m.inter_steps).length : ℝ) - 1)
        m.states.length
      rw [hc] at hl
      simpa using hl.symm
    by_cases h2 : m.has_time = true ∧ m.state_time.length < 2
    · simp [List.isEmpty_iff, hnil, h, h2]
    · simp [List.isEmpty_iff, hnil, h, h2]

/-- C6 (amended): the Interpolation Engine fails exactly when ZERO key-frames
are supplied (numpy's empty-sample-points error at the first `np.interp`
call), or when the viewer has a time axis and fewer than 2 time points were
captured (`np.concatenate` on an empty list, lines 230-236).  In particular,
with exactly one key-frame and no time axis it does not fail — it silently
returns an empty dense track instead of raising an
insufficient-key-frames error. -/
theorem claim_C6_failure_condition (m : MovieInput) :
    create_steps m = none
      ↔ (m.states = [] ∨ (m.has_time = true ∧ m.state_time.length < 2)) :=
  create_steps_eq_none_iff m

/-- Counterexample to C6 as stated: one key-frame is fewer than 2, yet
`create_steps` succeeds (no time axis). -/
theorem claim_C6_counterexample :
    (MovieInput.mk [CamState.mk ⟨1, 0, 0, 0⟩ 1 60 (0, 0, 0)] [[true]] 15 false []).states.length
        = 1 ∧
    create_steps (MovieInput.mk [CamState.mk ⟨1, 0, 0, 0⟩ 1 60 (0, 0, 0)] [[true]] 15 false [])
        ≠ none := by
  refine ⟨rfl, fun hc => ?_⟩
  rw [create_steps_eq_none_iff] at hc
  simp at hc

/-- Boundary behaviour of the two-key-frame dense track: every channel has
`inter_steps + 2` entries, and (for unit key-frame rotations with
nonnegative dot product) the first entry of every channel is key-frame 0's
value and the last entry is key-frame 1's value, exactly. -/
theorem create_steps_two_boundaries (c0 c1 : CamState) (v0 v1 : List Bool) (s : ℕ)
    (h0 : qdot c0.quat c0.quat = 1) (h1 : qdot c1.quat c1.quat = 1)
    (hd : 0 ≤ qdot c0.quat c1.quat) :
    (create_steps (MovieInput.mk [c0, c1] [v0, v1] s false [])).map
        (fun t => (t.all_states.length, t.all_scales.length, t.all_fov.length,
          t.all_center.length))
      = some (s + 2, s + 2, s + 2, s + 2) ∧
    (create_steps (MovieInput.mk [c0, c1] [v0, v1] s false [])).map
        (fun t => (t.all_states.head?, t.all_states.getLast?))
      = some (some c0.quat, some c1.quat) ∧
    (create_steps (MovieInput.mk [c0, c1] [v0, v1] s false [])).map
        (fun t => (t.all_scales.head?, t.all_scales.getLast?))
      = some (some c0.scale_factor, some c1.scale_factor) ∧
    (create_steps (MovieInput.mk [c0, c1] [v0, v1] s false [])).map
        (fun t => (t.all_fov.head?, t.all_fov.getLast?))
      = some (some c0.fov, some c1.fov) ∧
    (create_steps (MovieInput.mk [c0, c1] [v0, v1] s false [])).map
        (fun t => (t.all_center.head?, t.all_center.getLast?))
      = some (some c0.center, some c1.center) ∧
    (create_steps (MovieInput.mk [c0, c1] [v0, v1] s false [])).map
        (fun t => t.all_vis.map (fun l => (l.head?, l.getLast?)))
      = some ((List.range v0.length).map
          (fun j => (some (v0.getD j false), some (v1.getD j false)))) := by
  have hxlast : ((s + 1 : ℕ) : ℝ) = (s : ℝ) + 1 := by push_cast; ring
  have hpos : (0 : ℝ) < (s : ℝ) + 1 := by positivity
  rw [create_steps_two]
  simp only [Option.map_some']
  refine ⟨?_, ?_, ?_, ?_, ?_, ?_⟩
  · simp [List.length_map, List.length_range, intermediates_length]
  · rw [intermediates_head, intermediates_getLast,
      slerp_zero c0.quat c1.quat h0 h1 hd, slerp_one c0.quat c1.quat h0 h1]
  · rw [show s + 2 = (s + 1) + 1 from rfl, range_map_head, range_map_getLast]
    rw [Nat.cast_zero, hxlast, npInterpVal_two_left, npInterpVal_two_right _ _ _ _ hpos]
  · rw [show s + 2 = (s + 1) + 1 from rfl, range_map_head, range_map_getLast]
    rw [Nat.cast_zero, hxlast, npInterpVal_two_left, npInterpVal_two_right _ _ _ _ hpos]
  · rw [show s + 2 = (s + 1) + 1 from rfl, range_map_head, range_map_getLast]
    rw [Nat.cast_zero, hxlast, npInterpVal_two_left, npInterpVal_two_left,
      npInterpVal_two_left, npInterpVal_two_right _ _ _ _ hpos,
      npInterpVal_two_right _ _ _ _ hpos, npInterpVal_two_right _ _ _ _ hpos]
  · refine congrArg some ?_
    rw [List.map_map]
    refine List.map_congr_left ?_
    intro j hj
    simp only [Function.comp_apply]
    rw [show s + 2 = (s + 1) + 1 from rfl, range_map_head, range_map_getLast]
    rw [Nat.cast_zero, hxlast, npInterpVal_two_left, npInterpVal_two_right _ _ _ _ hpos]
    rw [threshold_bool, threshold_bool]

/-- C3 (amended): for exactly 2 key-frames and `inter_steps = 8`, every
channel of the dense track has length 10, and — provided the two key-frame
rotations are unit quaternions with nonnegative dot product — the first
entry of every channel equals key-frame 0's value and the last entry equals
key-frame 1's value, exactly.  (The per-channel `(head, last)` pairs are
stated through `Option.map` so the statement also asserts interpolation
succeeds.) -/
theorem claim_C3_two_keyframe_track (c0 c1 : CamState) (v0 v1 : List Bool)
    (h0 : qdot c0.quat c0.quat = 1) (h1 : qdot c1.quat c1.quat = 1)
    (hd : 0 ≤ qdot c0.quat c1.quat) :
    (create_steps (MovieInput.mk [c0, c1] [v0, v1] 8 false [])).map
        (fun t => (t.all_states.length, t.all_scales.length, t.all_fov.length,
          t.all_center.length))
      = some (10, 10, 10, 10) ∧
    (create_steps (MovieInput.mk [c0, c1] [v0, v1] 8 false [])).map
        (fun t => (t.all_states.head?, t.all_states.getLast?))
      = some (some c0.quat, some c1.quat) ∧
    (create_steps (MovieInput.mk [c0, c1] [v0, v1] 8 false [])).map
        (fun t => (t.all_scales.head?, t.all_scales.getLast?))
      = some (some c0.scale_factor, some c1.scale_factor) ∧
    (create_steps (MovieInput.mk [c0, c1] [v0, v1] 8 false [])).map
        (fun t => (t.all_fov.head?, t.all_fov.getLast?))
      = some (some c0.fov, some c1.fov) ∧
    (create_steps (MovieInput.mk [c0, c1] [v0, v1] 8 false [])).map
        (fun t => (t.all_center.head?, t.all_center.getLast?))
      = some (some c0.center, some c1.center) ∧
    (create_steps (MovieInput.mk [c0, c1] [v0, v1] 8 false [])).map
        (fun t => t.all_vis.map (fun l => (l.head?, l.getLast?)))
      = some ((List.range v0.length).map
          (fun j => (some (v0.getD j false), some (v1.getD j false)))) :=
  create_steps_two_boundaries c0 c1 v0 v1 8 h0 h1 hd

/-- Witness for C3 on concrete unit key-frame rotations. -/
theorem claim_C3_witness :
    (qdot (Quat.mk 1 0 0 0) (Quat.mk 1 0 0 0) = 1 ∧
      (0 : ℝ) ≤ qdot (Quat.mk 1 0 0 0) (Quat.mk 1 0 0 0)) ∧
    (create_steps (MovieInput.mk
        [CamState.mk ⟨1, 0, 0, 0⟩ 2 60 (0, 0, 0), CamState.mk ⟨1, 0, 0, 0⟩ 3 45 (1, 2, 3)]
        [[true], [false]] 8 false [])).map
        (fun t => (t.all_states.length, t.all_scales.length, t.all_fov.length,
          t.all_center.length))
      = some (10, 10, 10, 10) ∧
    (create_steps (MovieInput.mk
        [CamState.mk ⟨1, 0, 0, 0⟩ 2 60 (0, 0, 0), CamState.mk ⟨1, 0, 0, 0⟩ 3 45 (1, 2, 3)]
        [[true], [false]] 8 false [])).map
        (fun t => (t.all_scales.head?, t.all_scales.getLast?))
      = some (some 2, some 3) :=
  ⟨⟨by norm_num [qdot], by norm_num [qdot]⟩,
   (claim_C3_two_keyframe_track (CamState.mk ⟨1, 0, 0, 0⟩ 2 60 (0, 0, 0))
      (CamState.mk ⟨1, 0, 0, 0⟩ 3 45 (1, 2, 3)) [true] [false]
      (by norm_num [qdot]) (by norm_num [qdot]) (by norm_num [qdot])).1,
   (claim_C3_two_keyframe_track (CamState.mk ⟨1, 0, 0, 0⟩ 2 60 (0, 0, 0))
      (CamState.mk ⟨1, 0, 0, 0⟩ 3 45 (1, 2, 3)) [true] [false]
      (by norm_num [qdot]) (by norm_num [qdot]) (by norm_num [qdot])).2.2.1⟩

/-- Counterexample to C3 as stated: with the (unit) key-frame rotations
`(1,0,0,0)` and `(-1,0,0,0)` — whose dot product is negative — the first
entry of the rotation track is the sign-flipped `(-1,0,0,0)`, not key-frame
0's value `(1,0,0,0)`. -/
theorem claim_C3_counterexample :
    (create_steps (MovieInput.mk
        [CamState.mk ⟨1, 0, 0, 0⟩ 1 60 (0, 0, 0), CamState.mk ⟨-1, 0, 0, 0⟩ 1 60 (0, 0, 0)]
        [[true], [true]] 8 false [])).map (fun t => t.all_states.head?)
      = some (some (Quat.mk (-1) 0 0 0)) ∧
    Quat.mk (-1) 0 0 0 ≠ Quat.mk 1 0 0 0 := by
  constructor
  · rw [create_steps_two]
    simp only [Option.map_some']
    rw [intermediates_head]
    have hs : slerp (Quat.mk 1 0 0 0) (Quat.mk (-1) 0 0 0) 0 = Quat.mk (-1) 0 0 0 := by
      unfold slerp
      rw [fastNormalise_unit _ (by norm_num [qdot]),
        fastNormalise_unit _ (by norm_num [qdot])]
      have hflip : slerpFlip (Quat.mk 1 0 0 0) (Quat.mk (-1) 0 0 0)
          = (Quat.mk (-1) 0 0 0, 1) := by
        unfold slerpFlip
        rw [if_pos (by norm_num [qdot] : qdot (Quat.mk 1 0 0 0) (Quat.mk (-1) 0 0 0) < 0)]
        simp only [Prod.mk.injEq]
        refine ⟨?_, by norm_num [qdot]⟩
        refine Quat.ext ?_ ?_ ?_ ?_ <;> simp [qneg]
      rw [hflip, show max 0 (min 1 (0 : ℝ)) = 0 by norm_num]
      show slerpCore (Quat.mk (-1) 0 0 0) (Quat.mk (-1) 0 0 0) 1 0 = Quat.mk (-1) 0 0 0
      exact slerpCore_zero _ _ _ (by norm_num [qdot])
    rw [hs]
  · intro hc
    have hw := congrArg Quat.w hc
    norm_num at hw

/-- The visibility track of two key-frames `visible → invisible`: `true` for
every frame except the very last one of the segment, where the 1→0 linear
ramp reaches zero and the `> 0` threshold first fails. -/
theorem create_steps_two_vis_TF (c0 c1 : CamState) (s : ℕ) :
    (create_steps (MovieInput.mk [c0, c1] [[true], [false]] s false [])).map DenseTrack.all_vis
      = some [List.replicate (s + 1) true ++ [false]] := by
  rw [create_steps_two]
  simp only [Option.map_some']
  rw [show ([true] : List Bool).length = 1 from rfl,
    show List.range 1 = [0] from rfl, List.map_cons, List.map_nil]
  refine congrArg (fun l => some [l]) ?_
  simp only [List.getD_cons_zero,
    show (if (true = true) then (1 : ℝ) else 0) = 1 from by simp,
    show (if (false = true) then (1 : ℝ) else 0) = 0 from by simp, eq_self_iff_true,
    if_true]
  have hp : (0 : ℝ) < (s : ℝ) + 1 := by positivity
  have hval : ∀ i : ℕ, i < s + 1 →
      (0 : ℝ) < npInterpVal (i : ℝ) [(0, 1), ((s : ℝ) + 1, 0)] := by
    intro i hi
    rcases Nat.eq_zero_or_pos i with rfl | hpos0
    · rw [Nat.cast_zero, npInterpVal_two_left]
      norm_num
    · have hx0 : ¬ (i : ℝ) ≤ 0 := by
        push_neg
        exact_mod_cast hpos0
      have hxL : (i : ℝ) ≤ (s : ℝ) + 1 := by
        have h2 : (i : ℝ) ≤ ((s + 1 : ℕ) : ℝ) := by
          exact_mod_cast Nat.le_of_lt_succ (Nat.lt_succ_of_lt hi)
        push_cast at h2
        linarith
      rw [npInterpVal_two_mid _ _ _ _ hx0 hxL,
        show (1 : ℝ) + (0 - 1) * (i : ℝ) / ((s : ℝ) + 1)
          = 1 - (i : ℝ) / ((s : ℝ) + 1) by ring, sub_pos]
      refine (div_lt_one hp).mpr ?_
      have : (i : ℝ) < ((s + 1 : ℕ) : ℝ) := by exact_mod_cast hi
      push_cast at this
      linarith
  have hlast : npInterpVal (((s + 1 : ℕ)) : ℝ) [(0, 1), ((s : ℝ) + 1, 0)] = 0 := by
    rw [show (((s + 1 : ℕ)) : ℝ) = (s : ℝ) + 1 by push_cast; ring]
    exact npInterpVal_two_right _ _ _ _ hp
  refine List.ext_getElem? ?_
  intro i
  rw [List.getElem?_map]
  by_cases h1 : i < s + 1
  · rw [List.getElem?_range (by omega : i < s + 2)]
    rw [List.getElem?_append_left (by simpa using h1)]
    rw [List.getElem?_replicate]
    simp only [Option.map_some', if_pos h1]
    rw [if_pos (hval i h1)]
  · by_cases h2 : i = s + 1
    · subst h2
      rw [List.getElem?_range (by omega : s + 1 < s + 2)]
      rw [List.getElem?_append_right (by simp)]
      simp only [Option.map_some', List.length_replicate, Nat.sub_self]
      rw [if_neg]
      · rfl
      · rw [hlast]
        exact lt_irrefl 0
    · rw [List.getElem?_eq_none (by simp only [List.length_range]; omega)]
      rw [List.getElem?_eq_none (by
        simp only [List.length_append, List.length_replicate, List.length_singleton]
        omega)]
      rfl

/-- C5 (amended): per layer the booleans are resampled as 0/1 with the same
`np.interp` call as zoom and thresholded with `> 0`; for key-frames
`visible → invisible` the resulting boolean track is `true` on every frame
but the last, flipping only at the final frame of the segment, where the 1→0
linear ramp reaches zero (not at the segment midpoint). -/
theorem claim_C5_visibility_threshold (c0 c1 : CamState) (s : ℕ) :
    (create_steps (MovieInput.mk [c0, c1] [[true], [false]] s false [])).map DenseTrack.all_vis
      = some [List.replicate (s + 1) true ++ [false]] :=
  create_steps_two_vis_TF c0 c1 s

/-- Counterexample to C5 as stated: with `inter_steps = 8` the track is
`true` for the first 9 of 10 frames and `false` only at the last, not
`true` for the first half and `false` for the second half. -/
theorem claim_C5_counterexample :
    (create_steps (MovieInput.mk
        [CamState.mk ⟨1, 0, 0, 0⟩ 1 60 (0, 0, 0), CamState.mk ⟨1, 0, 0, 0⟩ 1 60 (0, 0, 0)]
        [[true], [false]] 8 false [])).map DenseTrack.all_vis
      = some [[true, true, true, true, true, true, true, true, true, false]] ∧
    ([[true, true, true, true, true, true, true, true, true, false]] : List (List Bool))
      ≠ [[true, true, true, true, true, false, false, false, false, false]] := by
  constructor
  · rw [create_steps_two_vis_TF]
    rfl
  · decide


/-! ## Segment boundaries of the rotation dense track (C4) -/

theorem flatten_length_const {α : Type} (segs : List (List α)) (k : ℕ)
    (h : ∀ l ∈ segs, l.length = k) : segs.flatten.length = segs.length * k := by
  induction segs with
  | nil => simp
  | cons l ls ih =>
      simp only [List.flatten_cons, List.length_append, List.length_cons]
      rw [h l (List.mem_cons_self l ls),
        ih (fun x hx => h x (List.mem_cons_of_mem l hx))]
      ring

theorem flatten_getElem_const {α : Type} (segs : List (List α)) (k : ℕ)
    (a r : ℕ) (hr : r < k) (h : ∀ l ∈ segs, l.length = k) :
    segs.flatten[a * k + r]? = segs[a]?.bind (fun l => l[r]?) := by
  revert h
  induction segs generalizing a with
  | nil =>
      intro h
      simp
  | cons l ls ih =>
      intro h
      have hl : l.length = k := h l (List.mem_cons_self l ls)
      have htail : ∀ x ∈ ls, x.length = k := fun x hx => h x (List.mem_cons_of_mem l hx)
      cases a with
      | zero =>
          simp only [List.flatten_cons, Nat.zero_mul, Nat.zero_add]
          rw [List.getElem?_append_left (by omega)]
          simp
      | succ a =>
          simp only [List.flatten_cons]
          rw [show (a + 1) * k + r = l.length + (a * k + r) by rw [hl]; ring]
          rw [List.getElem?_append_right (by omega)]
          rw [Nat.add_sub_cancel_left]
          rw [ih a htail]
          simp

theorem zip_tail_getElem (qs : List Quat) (a : ℕ) (ha : a + 1 < qs.length) :
    (qs.zip qs.tail)[a]? = some (qs[a], qs[a + 1]) := by
  have hb : a < (qs.zip qs.tail).length := by
    rw [List.length_zip, List.length_tail]
    omega
  rw [List.getElem?_eq_getElem hb]
  congr 1
  rw [List.getElem_zip]
  congr 1
  rw [List.getElem_tail]

theorem intermediates_getElem_zero (q0 q1 : Quat) (n : ℕ) :
    (intermediates q0 q1 n)[0]? = some (slerp q0 q1 0) := by
  rw [← List.head?_eq_getElem?]
  exact intermediates_head q0 q1 n

theorem intermediates_getElem_last (q0 q1 : Quat) (n : ℕ) :
    (intermediates q0 q1 n)[n + 1]? = some (slerp q0 q1 1) := by
  have h := intermediates_getLast q0 q1 n
  rw [List.getLast?_eq_getElem?, intermediates_length] at h
  exact h

/-- C4 (amended): with three or more key-frames the rotation dense track has
`(n-1)*(inter_steps+2)` entries — both endpoints of every segment are
included — and each interior key-frame's rotation therefore appears TWICE,
at the two adjacent positions `i*(inter_steps+2) + inter_steps+1` (last
entry of segment `i`) and `(i+1)*(inter_steps+2)` (first entry of segment
`i+1`); the boundary entry is duplicated, not included exactly once. -/
theorem claim_C4_segment_boundary_duplication (qs : List Quat) (s i : ℕ)
    (hi : i + 2 < qs.length) (hu : ∀ q ∈ qs, qdot q q = 1)
    (hd : 0 ≤ qdot qs[i + 1] qs[i + 2]) :
    (allStatesList qs s).length = (qs.length - 1) * (s + 2) ∧
    (allStatesList qs s)[i * (s + 2) + (s + 1)]? = some qs[i + 1] ∧
    (allStatesList qs s)[(i + 1) * (s + 2)]? = some qs[i + 1] := by
  have hsegs : ∀ l ∈ (qs.zip qs.tail).map (fun p => intermediates p.1 p.2 s),
      l.length = s + 2 := by
    intro l hl
    obtain ⟨p, _, rfl⟩ := List.mem_map.mp hl
    exact intermediates_length p.1 p.2 s
  have hzlen : ((qs.zip qs.tail).map (fun p => intermediates p.1 p.2 s)).length
      = qs.length - 1 := by
    rw [List.length_map, List.length_zip, List.length_tail]
    omega
  refine ⟨?_, ?_, ?_⟩
  · unfold allStatesList
    rw [flatten_length_const _ (s + 2) hsegs, hzlen]
  · unfold allStatesList
    rw [flatten_getElem_const _ (s + 2) i (s + 1) (by omega) hsegs]
    rw [List.getElem?_map, zip_tail_getElem qs i (by omega)]
    simp only [Option.map_some', Option.some_bind]
    rw [intermediates_getElem_last]
    rw [slerp_one _ _ (hu _ (List.getElem_mem _)) (hu _ (List.getElem_mem _))]
  · unfold allStatesList
    rw [show (i + 1) * (s + 2) = (i + 1) * (s + 2) + 0 from rfl]
    rw [flatten_getElem_const _ (s + 2) (i + 1) 0 (by omega) hsegs]
    rw [List.getElem?_map, zip_tail_getElem qs (i + 1) (by omega)]
    simp only [Option.map_some', Option.some_bind]
    rw [intermediates_getElem_zero]
    rw [slerp_zero _ _ (hu _ (List.getElem_mem _)) (hu _ (List.getElem_mem _)) hd]

/-- Witness for C4 (amended) on three concrete unit key-frame rotations with
`inter_steps = 0`: the interior rotation sits at the adjacent track
positions 1 and 2. -/
theorem claim_C4_witness :
    (0 + 2 < ([Quat.mk 1 0 0 0, Quat.mk (9999 / 10001) (200 / 10001) 0 0,
        Quat.mk 1 0 0 0] : List Quat).length) ∧
    (allStatesList [Quat.mk 1 0 0 0, Quat.mk (9999 / 10001) (200 / 10001) 0 0,
        Quat.mk 1 0 0 0] 0).length = 4 ∧
    (allStatesList [Quat.mk 1 0 0 0, Quat.mk (9999 / 10001) (200 / 10001) 0 0,
        Quat.mk 1 0 0 0] 0)[1]?
      = some (Quat.mk (9999 / 10001) (200 / 10001) 0 0) ∧
    (allStatesList [Quat.mk 1 0 0 0, Quat.mk (9999 / 10001) (200 / 10001) 0 0,
        Quat.mk 1 0 0 0] 0)[2]?
      = some (Quat.mk (9999 / 10001) (200 / 10001) 0 0) := by
  have h := claim_C4_segment_boundary_duplication
    [Quat.mk 1 0 0 0, Quat.mk (9999 / 10001) (200 / 10001) 0 0, Quat.mk 1 0 0 0] 0 0
    (by norm_num)
    (by
      intro q hq
      simp only [List.mem_cons, List.not_mem_nil, or_false] at hq
      rcases hq with rfl | rfl | rfl <;> norm_num [qdot])
    (by norm_num [qdot])
  exact ⟨by norm_num, h.1, h.2.1, h.2.2⟩

/-- Counterexample to C4 as stated: for three key-frame rotations with
`inter_steps = 0` the track is `[q0, q1, q1, q2]` — the interior key-frame's
rotation `q1` (distinct from `q0` and `q2`) appears twice, not exactly
once. -/
theorem claim_C4_counterexample :
    allStatesList [Quat.mk 1 0 0 0, Quat.mk (9999 / 10001) (200 / 10001) 0 0,
        Quat.mk 1 0 0 0] 0
      = [Quat.mk 1 0 0 0, Quat.mk (9999 / 10001) (200 / 10001) 0 0,
         Quat.mk (9999 / 10001) (200 / 10001) 0 0, Quat.mk 1 0 0 0] ∧
    Quat.mk (9999 / 10001) (200 / 10001) 0 0 ≠ Quat.mk 1 0 0 0 := by
  constructor
  · unfold allStatesList
    simp only [List.tail_cons, List.zip_cons_cons, List.zip_nil_right,
      List.map_cons, List.map_nil]
    have hint : ∀ q p : Quat, intermediates q p 0 = [slerp q p 0, slerp q p 1] := by
      intro q p
      unfold intermediates
      rw [show (0 : ℕ) + 2 = 2 from rfl, show List.range 2 = [0, 1] from rfl,
        List.map_cons, List.map_cons, List.map_nil]
      norm_num
    rw [hint, hint]
    rw [slerp_zero (Quat.mk 1 0 0 0) (Quat.mk (9999 / 10001) (200 / 10001) 0 0)
        (by norm_num [qdot]) (by norm_num [qdot]) (by norm_num [qdot]),
      slerp_one (Quat.mk 1 0 0 0) (Quat.mk (9999 / 10001) (200 / 10001) 0 0)
        (by norm_num [qdot]) (by norm_num [qdot]),
      slerp_zero (Quat.mk (9999 / 10001) (200 / 10001) 0 0) (Quat.mk 1 0 0 0)
        (by norm_num [qdot]) (by norm_num [qdot]) (by norm_num [qdot]),
      slerp_one (Quat.mk (9999 / 10001) (200 / 10001) 0 0) (Quat.mk 1 0 0 0)
        (by norm_num [qdot]) (by norm_num [qdot])]
    rfl
  · intro hc
    have hw := congrArg Quat.w hc
    norm_num at hw
